import Mathlib

/-!
Verification of the WorldBathy_Downloader raster retrieval and mosaic engine
(`src/download_module.py`, class `BathymetryDownloader`) against its
natural-language specification.

The Python code is shallowly embedded: numeric cell values are `ℚ`; a cell
holding NaN (the internal "no data" sentinel used during processing) is
`none : Option ℚ`; numpy arrays become Lean functions or lists; the Qt
signal/slot event stream becomes an explicit list of events produced by a
small step interpreter.
-/

namespace WorldBathy

/-! ### Tiled download geometry and overlap blending
(`BathymetryDownloader._download_tiled`, lines 535-731)

`self.tile_max_size = 2000` and `self.tile_overlap = 5` are fixed in
`__init__`; the definitions below take them as parameters `T` and `ov` so the
geometry lemmas hold for the general planner, and the concrete theorems
instantiate `T := 2000`, `ov := 5`. -/

/-- `tile_max_size` as set in `__init__` (line 38). -/
def tile_max_size : Nat := 2000

/-- `tile_overlap` as set in `__init__` (line 37). -/
def tile_overlap : Nat := 5

/-- `tiles_x = int(np.ceil(total_width / self.tile_max_size))` (line 542):
ceiling division, written on naturals. -/
def tilesX (T W : Nat) : Nat := (W + T - 1) / T

/-- `tiles_y = int(np.ceil(total_height / self.tile_max_size))` (line 543). -/
def tilesY (T H : Nat) : Nat := (H + T - 1) / T

/-- `tile_start_x = tile_x * self.tile_max_size` (line 575). -/
def tileStart (T i : Nat) : Nat := i * T

/-- `tile_end_x = min(tile_start_x + self.tile_max_size, total_width)`
(line 577). -/
def tileEnd (T W i : Nat) : Nat := min (tileStart T i + T) W

/-- `overlap_start_x = max(0, tile_start_x - self.tile_overlap)` (line 581);
on naturals the truncated subtraction already clamps at 0. -/
def overlapStart (T ov i : Nat) : Nat := tileStart T i - ov

/-- The per-cell combination of an existing canvas value with the value the
current tile contributes at that cell (lines 697-705): both valid → mean,
one valid → that one, neither → stays NaN.  `none` models NaN. -/
def blend : Option ℚ → Option ℚ → Option ℚ
  | some a, some b => some ((a + b) / 2)
  | none, some b => some b
  | some a, none => some a
  | none, none => none

/-- Placement of one fetched tile into the canvas (lines 663-707).

`resp i j r c` is the decoded (already NaN-masked, float) value at row `r`,
column `c` of tile `(i, j)`'s fetched array, whose pixel origin is the
overlap-extended corner `(overlapStart T ov i, overlapStart T ov j)`.

The code crops the fetched array back to the tile's core
(`tile_data = tile_array[tile_offset_y : tile_offset_y + tile_region_height,
tile_offset_x : tile_offset_x + tile_region_width]`, lines 679-680, with
`tile_offset_x = tile_start_x - overlap_start_x`) and then blends that core
slice with `img_array[tile_start_y:tile_end_y, tile_start_x:tile_end_x]`.
Hence a canvas cell `(x, y)` is touched by tile `(i, j)` exactly when it lies
in the tile's core rectangle, and the tile's contribution there is its array
entry at row `y - overlapStart T ov j`, column `x - overlapStart T ov i`. -/
def placeTile (T ov W H : Nat) (resp : Nat → Nat → Nat → Nat → Option ℚ)
    (i j : Nat) (canvas : Nat → Nat → Option ℚ) : Nat → Nat → Option ℚ :=
  fun x y =>
    if tileStart T i ≤ x ∧ x < tileEnd T W i ∧ tileStart T j ≤ y ∧ y < tileEnd T H j then
      blend (canvas x y) (resp i j (y - overlapStart T ov j) (x - overlapStart T ov i))
    else canvas x y

/-- The assembled canvas after the double tile loop of `_download_tiled`
(lines 563-707): `img_array` starts as all-NaN (`np.full(..., np.nan)`,
line 556) and the tiles are placed with `tile_y` outer, `tile_x` inner. -/
def mosaic (T ov W H : Nat) (resp : Nat → Nat → Nat → Nat → Option ℚ) :
    Nat → Nat → Option ℚ :=
  (List.range (tilesY T H)).foldl
    (fun canvas j =>
      (List.range (tilesX T W)).foldl
        (fun canvas i => placeTile T ov W H resp i j canvas) canvas)
    (fun _ _ => none)

theorem blend_none_left (v : Option ℚ) : blend none v = v := by
  cases v <;> rfl

/-- A coordinate lies in tile `i`'s core interval iff `i` is the coordinate's
euclidean quotient by the tile edge and the coordinate is on the canvas. -/
theorem core_mem_iff {T W i x : Nat} (hT : 0 < T) :
    (tileStart T i ≤ x ∧ x < tileEnd T W i) ↔ (i = x / T ∧ x < W) := by
  simp only [tileEnd, tileStart, Nat.lt_min]
  constructor
  · rintro ⟨h1, h2, h3⟩
    refine ⟨?_, h3⟩
    have hsucc : x < (i + 1) * T := by
      have : (i + 1) * T = i * T + T := by ring
      omega
    have := Nat.div_eq_of_lt_le (n := T) (k := i) (m := x) h1 hsucc
    omega
  · rintro ⟨rfl, hW⟩
    refine ⟨Nat.div_mul_le_self x T, ?_, hW⟩
    have h1 := Nat.div_add_mod x T
    have h2 := Nat.mod_lt x hT
    have h3 : x / T * T + T = (x / T + 1) * T := by ring
    have h4 : T * (x / T) = x / T * T := Nat.mul_comm _ _
    omega

theorem div_lt_tiles {T W x : Nat} (hT : 0 < T) (hx : x < W) :
    x / T < tilesX T W := by
  unfold tilesX
  have h1 : W + T - 1 = (W - 1) + T := by omega
  rw [h1, Nat.add_div_right _ hT]
  have : x / T ≤ (W - 1) / T := Nat.div_le_div_right (by omega)
  omega

theorem placeTile_noop {T ov W H : Nat} {resp : Nat → Nat → Nat → Nat → Option ℚ}
    {i j x y : Nat} (canvas : Nat → Nat → Option ℚ) (hT : 0 < T)
    (h : ¬(i = x / T ∧ j = y / T ∧ x < W ∧ y < H)) :
    placeTile T ov W H resp i j canvas x y = canvas x y := by
  unfold placeTile
  rw [if_neg]
  intro ⟨h1, h2, h3, h4⟩
  have hx := (core_mem_iff (W := W) (i := i) (x := x) hT).1 ⟨h1, h2⟩
  have hy := (core_mem_iff (W := H) (i := j) (x := y) hT).1 ⟨h3, h4⟩
  exact h ⟨hx.1, hy.1, hx.2, hy.2⟩

theorem placeTile_core {T ov W H : Nat} {resp : Nat → Nat → Nat → Nat → Option ℚ}
    {x y : Nat} (canvas : Nat → Nat → Option ℚ) (hT : 0 < T)
    (hx : x < W) (hy : y < H) :
    placeTile T ov W H resp (x / T) (y / T) canvas x y =
      blend (canvas x y)
        (resp (x / T) (y / T) (y - overlapStart T ov (y / T)) (x - overlapStart T ov (x / T))) := by
  unfold placeTile
  rw [if_pos]
  have hx' := (core_mem_iff (W := W) (i := x / T) (x := x) hT).2 ⟨rfl, hx⟩
  have hy' := (core_mem_iff (W := H) (i := y / T) (x := y) hT).2 ⟨rfl, hy⟩
  exact ⟨hx'.1, hx'.2, hy'.1, hy'.2⟩

theorem innerFold_eq {T ov W H : Nat} {resp : Nat → Nat → Nat → Nat → Option ℚ}
    {x y : Nat} (hT : 0 < T) (hx : x < W) (hy : y < H) (n : Nat)
    (canvas : Nat → Nat → Option ℚ) :
    ((List.range n).foldl (fun c i => placeTile T ov W H resp i (y / T) c) canvas) x y =
      if x / T < n then
        blend (canvas x y)
          (resp (x / T) (y / T) (y - overlapStart T ov (y / T)) (x - overlapStart T ov (x / T)))
      else canvas x y := by
  induction n generalizing canvas with
  | zero => simp
  | succ n ih =>
    rw [List.range_succ, List.foldl_append]
    simp only [List.foldl_cons, List.foldl_nil]
    by_cases hn : x / T = n
    · subst hn
      rw [if_pos (Nat.lt_succ_self _)]
      rw [placeTile_core _ hT hx hy, ih canvas, if_neg (Nat.lt_irrefl _)]
    · rw [placeTile_noop _ hT (by tauto), ih canvas]
      by_cases hlt : x / T < n
      · rw [if_pos hlt, if_pos (Nat.lt_succ_of_lt hlt)]
      · rw [if_neg hlt, if_neg (by omega)]

theorem innerFold_noop {T ov W H : Nat} {resp : Nat → Nat → Nat → Nat → Option ℚ}
    {x y j : Nat} (hT : 0 < T) (hj : j ≠ y / T) (n : Nat)
    (canvas : Nat → Nat → Option ℚ) :
    ((List.range n).foldl (fun c i => placeTile T ov W H resp i j c) canvas) x y =
      canvas x y := by
  induction n generalizing canvas with
  | zero => simp
  | succ n ih =>
    rw [List.range_succ, List.foldl_append]
    simp only [List.foldl_cons, List.foldl_nil]
    rw [placeTile_noop _ hT (by tauto), ih canvas]

theorem outerFold_eq {T ov W H : Nat} {resp : Nat → Nat → Nat → Nat → Option ℚ}
    {x y : Nat} (hT : 0 < T) (hx : x < W) (hy : y < H) (m : Nat)
    (canvas : Nat → Nat → Option ℚ) :
    ((List.range m).foldl
        (fun c j => (List.range (tilesX T W)).foldl
          (fun c i => placeTile T ov W H resp i j c) c) canvas) x y =
      if y / T < m then
        blend (canvas x y)
          (resp (x / T) (y / T) (y - overlapStart T ov (y / T)) (x - overlapStart T ov (x / T)))
      else canvas x y := by
  induction m generalizing canvas with
  | zero => simp
  | succ m ih =>
    rw [List.range_succ, List.foldl_append]
    simp only [List.foldl_cons, List.foldl_nil]
    by_cases hm : y / T = m
    · subst hm
      rw [if_pos (Nat.lt_succ_self _)]
      rw [innerFold_eq hT hx hy, if_pos (div_lt_tiles hT hx), ih canvas,
        if_neg (Nat.lt_irrefl _)]
    · rw [innerFold_noop hT (by omega), ih canvas]
      by_cases hlt : y / T < m
      · rw [if_pos hlt, if_pos (Nat.lt_succ_of_lt hlt)]
      · rw [if_neg hlt, if_neg (by omega)]

/-- Each canvas cell of the assembled mosaic holds exactly the contribution
of the unique tile whose non-overlap core contains it. -/
theorem mosaic_eq_core_owner {T ov W H : Nat}
    (resp : Nat → Nat → Nat → Nat → Option ℚ) {x y : Nat}
    (hT : 0 < T) (hx : x < W) (hy : y < H) :
    mosaic T ov W H resp x y =
      resp (x / T) (y / T) (y - overlapStart T ov (y / T)) (x - overlapStart T ov (x / T)) := by
  unfold mosaic
  have hYX : tilesY T H = tilesX T H := rfl
  rw [outerFold_eq hT hx hy, hYX, if_pos (div_lt_tiles hT hy), blend_none_left]

/-- C1 (counterexample).  The claim predicts that a canvas cell lying in a
neighbouring tile's 5-pixel overlap margin receives the three-way blend of
both tiles' contributions, evaluated before cropping to core.  Concretely:
canvas 2001×1 with tile edge 2000 and overlap 5 gives two tiles; cell
`x = 2000` is in tile 1's core and inside tile 0's overlap extension
(`overlap_end_x = min(2000 + 5, 2001) = 2001`).  Tile 0's decoded value is
everywhere 10 and tile 1's is everywhere 20, so the claim demands the mean
15 at that cell; the code crops tile 0 back to its core before blending, so
the cell holds exactly tile 1's value 20. -/
theorem c1_counterexample :
    mosaic 2000 5 2001 1 (fun i _ _ _ => if i = 0 then some 10 else some 20) 2000 0 =
      some 20 ∧
    (some (20 : ℚ) ≠ some ((10 + 20) / 2 : ℚ)) := by
  constructor
  · rfl
  · intro h
    rw [Option.some_inj] at h
    norm_num at h

/-- C1 (amended).  In every tiled run the three-way rule is applied
cell-by-cell between the canvas and the placed tile data, but the placed
data is the tile's overlap-extended array *already cropped to its
non-overlap core*: the cores partition the canvas, the canvas starts
all-sentinel, so the two-sided (mean) branch never fires and every canvas
cell ends up holding exactly the value its unique core-owning tile `(x / T,
y / T)` decoded at that position — cells lying in a neighbouring tile's
5-pixel overlap margin never contribute to the canvas value. -/
theorem c1_blend_applied_after_crop_to_core {T ov W H : Nat}
    (resp : Nat → Nat → Nat → Nat → Option ℚ) {x y : Nat}
    (hT : 0 < T) (hx : x < W) (hy : y < H) :
    mosaic T ov W H resp x y =
      resp (x / T) (y / T) (y - overlapStart T ov (y / T)) (x - overlapStart T ov (x / T)) :=
  mosaic_eq_core_owner resp hT hx hy

/-- A concrete tile-response function used by the witness of C1. -/
def c1RespW : Nat → Nat → Nat → Nat → Option ℚ := fun i _ _ _ => some (i : ℚ)

theorem c1_witness :
    0 < 2 ∧ 2 < 3 ∧ 0 < 1 ∧
      mosaic 2 5 3 1 c1RespW 2 0 =
        c1RespW (2 / 2) (0 / 2) (0 - overlapStart 2 5 (0 / 2)) (2 - overlapStart 2 5 (2 / 2)) :=
  ⟨by decide, by decide, by decide,
    c1_blend_applied_after_crop_to_core c1RespW (by decide) (by decide) (by decide)⟩

/-- C5 (confirmed).  For every canvas of width `W` and height `H` partitioned
with tile edge limit `T`, every canvas pixel lies in the non-overlap core of
exactly one of the `⌈W/T⌉ × ⌈H/T⌉` planned tiles: the cores are pairwise
disjoint and cover the canvas with no gaps. -/
theorem c5_cores_partition_canvas {T W H : Nat} (hT : 0 < T)
    {x y : Nat} (hx : x < W) (hy : y < H) :
    ∃! p : Nat × Nat,
      p.1 < tilesX T W ∧ p.2 < tilesY T H ∧
      tileStart T p.1 ≤ x ∧ x < tileEnd T W p.1 ∧
      tileStart T p.2 ≤ y ∧ y < tileEnd T H p.2 := by
  refine ⟨(x / T, y / T), ⟨div_lt_tiles hT hx, div_lt_tiles hT hy, ?_⟩, ?_⟩
  · have hx' := (core_mem_iff (W := W) (i := x / T) (x := x) hT).2 ⟨rfl, hx⟩
    have hy' := (core_mem_iff (W := H) (i := y / T) (x := y) hT).2 ⟨rfl, hy⟩
    exact ⟨hx'.1, hx'.2, hy'.1, hy'.2⟩
  · rintro ⟨i, j⟩ ⟨-, -, h1, h2, h3, h4⟩
    have hx' := (core_mem_iff (W := W) (i := i) (x := x) hT).1 ⟨h1, h2⟩
    have hy' := (core_mem_iff (W := H) (i := j) (x := y) hT).1 ⟨h3, h4⟩
    simp [hx'.1, hy'.1]

theorem c5_witness :
    0 < 2000 ∧ 1500 < 2001 ∧ 0 < 1 ∧
      ∃! p : Nat × Nat,
        p.1 < tilesX 2000 2001 ∧ p.2 < tilesY 2000 1 ∧
        tileStart 2000 p.1 ≤ 1500 ∧ 1500 < tileEnd 2000 2001 p.1 ∧
        tileStart 2000 p.2 ≤ 0 ∧ 0 < tileEnd 2000 1 p.2 :=
  ⟨by decide, by decide, by decide,
    c5_cores_partition_canvas (by decide) (by decide) (by decide)⟩

/-! ### Declared-nodata handling (`run`, lines 171-195; `_download_tiled`,
lines 627-647)

A decoded pixel grid is a `List ℚ` (the raw values as the server declared
them); masking a cell to the internal NaN sentinel turns it into
`none : Option ℚ`.  The "zero is valid" flag of the source-type rule is
`self._preserve_int16 or self._preserve_int8` in the code. -/

/-- `np.where(img_array == source_nodata, np.nan, img_array)`
(lines 185, 188, 193, 195, 639, 647). -/
def maskNodata (nd : ℚ) (cells : List ℚ) : List (Option ℚ) :=
  cells.map fun v => if v = nd then none else some v

/-- Declared-nodata handling of the single-request path (lines 171-197):
given the zero-is-valid flag (`preserve`), the response's declared nodata
and the decoded cells, returns the processed cells and the retained
`source_nodata`.
* declared nodata present and equal to 0 with the flag set → nodata ignored
  entirely, nothing masked (lines 175-177);
* declared nodata nonzero → matching cells masked (lines 178-188);
* declared nodata 0 without the flag → "nodata is 0 but not GEBCO 2025,
  still mask it" (lines 189-195). -/
def processSingle (preserve : Bool) (declared : Option ℚ) (cells : List ℚ) :
    List (Option ℚ) × Option ℚ :=
  match declared with
  | some nd =>
    if preserve ∧ nd = 0 then (cells.map some, none)
    else if nd ≠ 0 then (maskNodata nd cells, some nd)
    else (maskNodata nd cells, some nd)
  | none => (cells.map some, none)

/-- Declared-nodata handling of the tiled path, per tile (lines 627-647):
`source_nodata` is latched from the first tile that declares one (`prior`),
with the zero-is-valid exception applied at latch time (lines 630-631), and
cells are masked only when the latched nodata is present *and nonzero*
(lines 638, 646). -/
def processTiledTile (preserve : Bool) (prior : Option ℚ) (declared : Option ℚ)
    (cells : List ℚ) : List (Option ℚ) × Option ℚ :=
  let sn : Option ℚ :=
    match prior, declared with
    | none, some nd => if preserve ∧ nd = 0 then none else some nd
    | p, _ => p
  match sn with
  | some nd => if nd ≠ 0 then (maskNodata nd cells, some nd) else (cells.map some, some nd)
  | none => (cells.map some, none)

/-- C2 (counterexample).  The claim asserts that for a non-zero-is-valid
(legacy float32) source a declared nodata of 0 masks cells equal to 0 in
*both* paths.  For the concrete response declaring nodata 0 with the single
cell 0: the single-request path masks the cell to the sentinel, but the
tiled path leaves it untouched, because its mask condition requires the
latched nodata to be nonzero (`source_nodata != 0`, lines 638/646). -/
theorem c2_counterexample :
    (processSingle false (some 0) [0]).1 = [none] ∧
    (processTiledTile false none (some 0) [0]).1 = [some 0] ∧
    ([some (0 : ℚ)] ≠ ([none] : List (Option ℚ))) := by
  refine ⟨rfl, rfl, by decide⟩

/-- C2 (amended).  When the declared per-response nodata is 0:
* zero-is-valid flag set (GEBCO 2025 int8/int16 source) → neither path masks
  any cell, in particular no cell whose value is literally 0;
* flag not set (legacy float32 source) → the single-request path masks cells
  equal to 0 to the internal sentinel, but the tiled path performs no
  masking at all, since its mask condition demands a nonzero latched nodata. -/
theorem c2_nodata_zero_rule (cells : List ℚ) :
    (processSingle true (some 0) cells).1 = cells.map some ∧
    (processTiledTile true none (some 0) cells).1 = cells.map some ∧
    (processSingle false (some 0) cells).1 = maskNodata 0 cells ∧
    (processTiledTile false none (some 0) cells).1 = cells.map some := by
  refine ⟨rfl, rfl, ?_, rfl⟩
  simp [processSingle]

/-! ### Source-type rule derivation (`__init__`, lines 44-53; `run`,
lines 212-221; `_download_tiled`, lines 640-643)

The pair `(self._preserve_int8, self._preserve_int16)` fixes the preserved
representation.  `__init__` derives it from substring tests on the service
base URL; the decode paths update it from a response's declared element
type, but only while both flags are still `False`. -/

/-- Python's `pat in s` membership on strings: `startsWithChars pat l` is
"`l` begins with `pat`". -/
def startsWithChars : List Char → List Char → Bool
  | [], _ => true
  | _ :: _, [] => false
  | a :: pa, b :: pb => a == b && startsWithChars pa pb

/-- Does `pat` occur as a contiguous substring of the list? -/
def hasInfixChars (pat : List Char) : List Char → Bool
  | [] => startsWithChars pat []
  | b :: bs => startsWithChars pat (b :: bs) || hasInfixChars pat bs

/-- `pat in s` (Python substring containment). -/
def containsSub (s pat : String) : Bool := hasInfixChars pat.data s.data

/-- numpy element types the decoder distinguishes. -/
inductive NpDtype where
  | int8
  | int16
  | uint8
  | float32
deriving DecidableEq

/-- Is the dtype an integer type (`np.issubdtype(dtype, np.integer)`)? -/
def NpDtype.isInteger : NpDtype → Bool
  | .int8 => true
  | .int16 => true
  | .uint8 => true
  | .float32 => false

/-- `__init__` lines 44-53: derive `(preserve_int8, preserve_int16)` from the
base URL: GEBCO 2025 TID → int8; other GEBCO 2025 → int16; otherwise neither
(float32). -/
def initPreserveFlags (base_url : String) : Bool × Bool :=
  if containsSub base_url "GEBCO" ∧ containsSub base_url "2025" ∧ containsSub base_url "TID"
  then (true, false)
  else if containsSub base_url "GEBCO" ∧ containsSub base_url "2025" then (false, true)
  else (false, false)

/-- Per-response flag update (`run` lines 212-221, `_download_tiled` lines
640-643): "Only update preserve_int8/int16 flags if not already set".  When
both flags are `False`, an integer-typed response sets them from its
declared element type; otherwise they are left unchanged. -/
def updatePreserveFlags (p : Bool × Bool) (dt : NpDtype) : Bool × Bool :=
  if !p.1 && !p.2 then
    if dt.isInteger then (dt == NpDtype.int8, dt == NpDtype.int16) else (false, false)
  else p

/-- C3 (counterexample).  For a service URL that is not a GEBCO 2025 source,
`__init__` derives `(False, False)`, yet decoding a first response that
declares element type int8 flips `_preserve_int8` to `True` (lines 214-218):
the preserve state *is* set from the element type declared by the first
tile's response, contradicting the claimed immutability. -/
theorem c3_counterexample :
    initPreserveFlags "https://example.com/arcgis/rest/services/Bathy/ImageServer" =
      (false, false) ∧
    updatePreserveFlags
        (initPreserveFlags "https://example.com/arcgis/rest/services/Bathy/ImageServer")
        NpDtype.int8 = (true, false) ∧
    ((true, false) ≠ (false, false)) := by
  refine ⟨by decide, by decide, by decide⟩

/-- C3 (amended).  The source-type rule is derived once from the request's
base URL before any fetch, and *when that derivation sets a preserved-integer
flag* (GEBCO 2025 / TID sources) the state never changes afterwards, no
matter what element types later responses declare.  But when the derivation
leaves both flags `False` (legacy float32 sources), the flags are set lazily
from the element type declared by the first integer-typed response
(`updatePreserveFlags (false, false) dt = (dt == int8, dt == int16)` for
integer `dt`), so for those sources the state can change mid-run. -/
theorem c3_flags_immutable_once_set (p : Bool × Bool) (dts : List NpDtype)
    (h : p.1 = true ∨ p.2 = true) :
    List.foldl updatePreserveFlags p dts = p := by
  induction dts with
  | nil => rfl
  | cons d ds ih =>
    have hstep : updatePreserveFlags p d = p := by
      unfold updatePreserveFlags
      rcases h with h | h <;> simp [h]
    rw [List.foldl_cons, hstep, ih]

theorem c3_witness :
    ((initPreserveFlags "https://gebco2025.example.com/GEBCO_2025_TID/ImageServer").1 = true ∨
      (initPreserveFlags "https://gebco2025.example.com/GEBCO_2025_TID/ImageServer").2 = true) ∧
    List.foldl updatePreserveFlags
        (initPreserveFlags "https://gebco2025.example.com/GEBCO_2025_TID/ImageServer")
        [NpDtype.float32, NpDtype.int16] =
      initPreserveFlags "https://gebco2025.example.com/GEBCO_2025_TID/ImageServer" :=
  ⟨Or.inl (by decide),
    c3_flags_immutable_once_set _ [NpDtype.float32, NpDtype.int16] (Or.inl (by decide))⟩

/-! ### Classification (TID) mask predicates (`run`, lines 317-331) -/

/-- The masked-output modes that trigger TID masking (line 306/319). -/
def maskModes : List String :=
  ["bathymetry_only", "land_only", "direct_measurements_only",
    "direct_unknown_measurements_only"]

/-- Per-cell masking of one output variant (lines 317-331): given the mode,
the classification code `tid` at the cell and the mosaic value `v` there,
produce the output cell.  `combined` is not in the masked-mode list, so it
reaches no masking branch. -/
def applyMaskMode (mode : String) (tid : Int) (v : Option ℚ) : Option ℚ :=
  if mode ∈ maskModes then
    if mode = "bathymetry_only" then if tid = 0 then none else v
    else if mode = "land_only" then if tid ≠ 0 then none else v
    else if mode = "direct_measurements_only" then
      if tid < 10 ∨ tid > 20 then none else v
    else
      if ¬((10 ≤ tid ∧ tid ≤ 20) ∨ tid = 44 ∨ tid = 70) then none else v
  else v

/-- The keep-predicate exactly as the specification words it (§4.5 table);
used only to compare against `applyMaskMode`, which is the code's form. -/
def specKeepPredicate (mode : String) (tid : Int) : Prop :=
  if mode = "combined" then True
  else if mode = "bathymetry_only" then tid ≠ 0
  else if mode = "land_only" then tid = 0
  else if mode = "direct_measurements_only" then 10 ≤ tid ∧ tid ≤ 20
  else if mode = "direct_unknown_measurements_only" then
    (10 ≤ tid ∧ tid ≤ 20) ∨ tid = 44 ∨ tid = 70
  else True

instance (mode : String) (tid : Int) : Decidable (specKeepPredicate mode tid) := by
  unfold specKeepPredicate
  infer_instance

/-- C4 (confirmed).  For every classification code and every cell value, each
masked output variant keeps exactly the cells satisfying the mode's
predicate and sets every other cell to the no-data sentinel: `combined`
keeps all cells, `bathymetry_only` keeps `tid ≠ 0`, `land_only` keeps
`tid = 0`, `direct_measurements_only` keeps `10 ≤ tid ≤ 20`, and
`direct_unknown_measurements_only` keeps `(10 ≤ tid ≤ 20) ∨ tid = 44 ∨
tid = 70`. -/
theorem c4_mask_predicates (tid : Int) (v : Option ℚ) :
    applyMaskMode "combined" tid v = v ∧
    applyMaskMode "bathymetry_only" tid v =
      (if specKeepPredicate "bathymetry_only" tid then v else none) ∧
    applyMaskMode "land_only" tid v =
      (if specKeepPredicate "land_only" tid then v else none) ∧
    applyMaskMode "direct_measurements_only" tid v =
      (if specKeepPredicate "direct_measurements_only" tid then v else none) ∧
    applyMaskMode "direct_unknown_measurements_only" tid v =
      (if specKeepPredicate "direct_unknown_measurements_only" tid then v else none) := by
  refine ⟨?_, ?_, ?_, ?_, ?_⟩
  · simp [applyMaskMode, maskModes]
  · simp only [applyMaskMode, specKeepPredicate, maskModes]
    norm_num
    by_cases h : tid = 0 <;> simp [h]
  · simp only [applyMaskMode, specKeepPredicate, maskModes]
    norm_num
    by_cases h : tid = 0 <;> simp [h]
  · by_cases h : 10 ≤ tid ∧ tid ≤ 20
    · have h' : ¬(tid < 10 ∨ tid > 20) := by omega
      simp [applyMaskMode, specKeepPredicate, maskModes, h, h']
    · have h' : tid < 10 ∨ tid > 20 := by omega
      simp [applyMaskMode, specKeepPredicate, maskModes, h, h']
  · by_cases h : (10 ≤ tid ∧ tid ≤ 20) ∨ tid = 44 ∨ tid = 70
    · simp [applyMaskMode, specKeepPredicate, maskModes, h]
    · simp [applyMaskMode, specKeepPredicate, maskModes, h]

/-! ### Write-time nodata resolution (`_write_geotiff`, lines 481-533)

The buffer handed to `_write_geotiff` is a list of cells, `none` being NaN.
`npMaxMinInRange` models the Python guard
`img_array.size and img_array.max() <= 255 and img_array.min() >= 0`:
an empty array is falsy, and any NaN cell poisons `max()`/`min()` so the
comparisons are `False`. -/

/-- `img_array.size and img_array.max() <= 255 and img_array.min() >= 0`
(line 504). -/
def npMaxMinInRange (cells : List (Option ℚ)) : Bool :=
  !cells.isEmpty &&
    cells.all fun c =>
      match c with
      | some v => decide (0 ≤ v ∧ v ≤ 255)
      | none => false

/-- The nodata value `_write_geotiff` stamps into the output file
(lines 489-510).  `snIsInt` is `isinstance(source_nodata, (int, np.integer))`
(line 499); `dtypeIsUint8` is `img_array.dtype == np.uint8` (line 504). -/
def resolveWriteNodata (preserve_int8 preserve_int16 : Bool)
    (source_nodata : Option ℚ) (snIsInt : Bool) (dtypeIsUint8 : Bool)
    (cells : List (Option ℚ)) : ℚ :=
  let default_nodata : ℚ :=
    if preserve_int8 then -128 else if preserve_int16 then -32768 else -9999
  match source_nodata with
  | some sn =>
    if (preserve_int8 || preserve_int16) && snIsInt then sn
    else if !(preserve_int8 || preserve_int16) then sn
    else default_nodata
  | none =>
    if dtypeIsUint8 || npMaxMinInRange cells then
      if preserve_int8 then -128 else if preserve_int16 then -32768 else 0
    else default_nodata

/-- C10 (counterexample).  The claim quantifies over every float32-preserved
buffer with no declared nodata whose dtype is uint8 *or all of whose values
lie in [0, 255]*.  The empty buffer satisfies the second disjunct vacuously,
yet the code's guard `img_array.size and ...` is falsy on it, so the written
nodata tag stays −9999.0, not 0.0. -/
theorem c10_counterexample :
    (∀ c ∈ ([] : List (Option ℚ)), ∃ v, c = some v ∧ 0 ≤ v ∧ v ≤ 255) ∧
    resolveWriteNodata false false none false false [] = -9999 ∧
    ((-9999 : ℚ) ≠ 0) := by
  refine ⟨by simp, rfl, by norm_num⟩

/-- C10 (amended).  At write time, for every float32-preserved buffer with no
declared source nodata, if the buffer's dtype is uint8, or the buffer is
nonempty and every cell holds a (non-NaN) value in [0, 255], then the
written file's nodata tag is set to 0.0 rather than −9999.0 — so cells whose
genuine measured value is 0 become indistinguishable from no-data in the
persisted output. -/
theorem c10_uint8_range_nodata_zero (cells : List (Option ℚ)) (dtypeIsUint8 : Bool)
    (h : dtypeIsUint8 = true ∨
      (cells ≠ [] ∧ ∀ c ∈ cells, ∃ v, c = some v ∧ 0 ≤ v ∧ v ≤ 255)) :
    resolveWriteNodata false false none false dtypeIsUint8 cells = 0 := by
  unfold resolveWriteNodata
  have hcond : (dtypeIsUint8 || npMaxMinInRange cells) = true := by
    rcases h with h | ⟨hne, hall⟩
    · simp [h]
    · have : npMaxMinInRange cells = true := by
        unfold npMaxMinInRange
        rw [Bool.and_eq_true]
        constructor
        · simpa [List.isEmpty_iff] using hne
        · rw [List.all_eq_true]
          intro c hc
          obtain ⟨v, rfl, hv⟩ := hall c hc
          simpa using hv
      simp [this]
  simp [hcond]

theorem c10_witness :
    (false = true ∨
      (([some (5 : ℚ)] : List (Option ℚ)) ≠ [] ∧
        ∀ c ∈ ([some (5 : ℚ)] : List (Option ℚ)), ∃ v, c = some v ∧ 0 ≤ v ∧ v ≤ 255)) ∧
    resolveWriteNodata false false none false false [some (5 : ℚ)] = 0 :=
  ⟨Or.inr ⟨by decide, by intro c hc; refine ⟨5, ?_, by norm_num, by norm_num⟩; simpa using hc⟩,
    c10_uint8_range_nodata_zero [some (5 : ℚ)] false
      (Or.inr ⟨by decide, by intro c hc; refine ⟨5, ?_, by norm_num, by norm_num⟩; simpa using hc⟩)⟩

/-! ### Response decoding fallback chain (`run`, lines 136-282;
`_download_tiled`, lines 606-661)

A `FetchWorld` fixes which decoding steps would succeed for the returned
bytes: whether the response looks like a TIFF (content type / magic bytes),
whether rasterio can open it, whether PIL can open the same bytes, and
whether PIL can open the body of a second, PNG-format request.  All HTTP
requests themselves succeed (failure paths abort the run and are orthogonal
to the decode chain). -/

structure FetchWorld where
  contentIsTiff : Bool
  rasterioOk : Bool
  pilOk : Bool
  retryPilOk : Bool

/-- Result of a fetch: did it produce an array, and which `format` values
were requested over the network, in order. -/
structure FetchOutcome where
  success : Bool
  formats : List String
deriving DecidableEq

/-- The PNG-format retry of the single-request path (lines 265-282): the
whole request is reissued once with `params["format"] = "png"` and decoded
with PIL; a second failure fails the download. -/
def pngRetry (w : FetchWorld) (prev : List String) : FetchOutcome :=
  if w.retryPilOk then ⟨true, prev ++ ["png"]⟩ else ⟨false, prev ++ ["png"]⟩

/-- Single-request decode chain (lines 136-282): request `format=tiff`; if
the response looks like a TIFF, try rasterio, falling back to PIL on the
same bytes (lines 222-226); otherwise decode with PIL directly (lines
227-236).  Any decode exception reaches the outer handler (line 265) which
performs the PNG retry. -/
def singleFetch (w : FetchWorld) : FetchOutcome :=
  if w.contentIsTiff then
    if w.rasterioOk then ⟨true, ["tiff"]⟩
    else if w.pilOk then ⟨true, ["tiff"]⟩
    else pngRetry w ["tiff"]
  else
    if w.pilOk then ⟨true, ["tiff"]⟩
    else pngRetry w ["tiff"]

/-- Per-tile decode chain of the tiled path (lines 606-661): request
`format=tiff`; TIFF-looking responses try rasterio then PIL on the same
bytes (lines 620-655); non-TIFF responses decode with PIL (lines 656-661).
A decode exception reaches the per-tile handler (lines 709-712), which
emits the error and aborts — there is no second request. -/
def tiledTileFetch (w : FetchWorld) : FetchOutcome :=
  if w.contentIsTiff then
    if w.rasterioOk then ⟨true, ["tiff"]⟩
    else if w.pilOk then ⟨true, ["tiff"]⟩
    else ⟨false, ["tiff"]⟩
  else
    if w.pilOk then ⟨true, ["tiff"]⟩
    else ⟨false, ["tiff"]⟩

/-- Does any decoding step of the first response succeed? -/
def firstResponseDecodes (w : FetchWorld) : Bool :=
  if w.contentIsTiff then w.rasterioOk || w.pilOk else w.pilOk

/-- C7 (counterexample).  A tile whose TIFF-looking response neither rasterio
nor PIL can decode, in the tiled path: the tile fails after the single
`format=tiff` request — no PNG-format retry is issued, even though (in this
world) the retry would have succeeded. -/
theorem c7_counterexample :
    tiledTileFetch ⟨true, false, false, true⟩ = ⟨false, ["tiff"]⟩ ∧
    "png" ∉ (tiledTileFetch ⟨true, false, false, true⟩).formats ∧
    singleFetch ⟨true, false, false, true⟩ = ⟨true, ["tiff", "png"]⟩ := by
  refine ⟨rfl, by decide, rfl⟩

/-- C7 (amended).  When typed-raster decoding fails the same bytes are
decoded as a generic image in both paths; but when that also fails, only the
single-request path retries the whole request once with the PNG format —
in the tiled path the tile fails after the one `format=tiff` request, with
no retry. -/
theorem c7_fallback_chain (w : FetchWorld)
    (h : firstResponseDecodes w = false) :
    singleFetch w = ⟨w.retryPilOk, ["tiff", "png"]⟩ ∧
    tiledTileFetch w = ⟨false, ["tiff"]⟩ := by
  unfold firstResponseDecodes at h
  unfold singleFetch tiledTileFetch pngRetry
  rcases w with ⟨ct, ro, po, rp⟩
  cases ct <;> cases ro <;> cases po <;> cases rp <;> simp_all

theorem c7_witness :
    firstResponseDecodes ⟨false, true, false, false⟩ = false ∧
    singleFetch ⟨false, true, false, false⟩ = ⟨false, ["tiff", "png"]⟩ ∧
    tiledTileFetch ⟨false, true, false, false⟩ = ⟨false, ["tiff"]⟩ :=
  ⟨by decide,
    (c7_fallback_chain ⟨false, true, false, false⟩ (by decide)).1,
    (c7_fallback_chain ⟨false, true, false, false⟩ (by decide)).2⟩

/-! ### Event-level semantics of `run` (lines 59-479)

The observable behaviour of a run is its ordered stream of emitted Qt
signals (`progress`, `status`, `error`, `finished`), the network requests it
issues, the files it writes, and the points at which it polls
`self.cancelled`.  `runSteps` flattens the control flow of `run` (with all
network requests succeeding and decoding cleanly — failure aborts are
modelled by the fetch-level embedding above, and the array contents do not
influence which events a successful run emits) into a list of atomic steps;
`exec` interprets the steps against a cancellation schedule `cs`, where
`cs k` tells whether `self.cancelled` was already set when the `k`-th poll
executes.  A poll that observes the flag makes the interpreter stop, exactly
like the `if self.cancelled: return` statements. -/

inductive Ev where
  | progress (n : Nat)
  | status (s : String)
  | error (s : String)
  | request (url : String) (fmt : String)
  | write (path : String)
  | finished (s : String)
deriving DecidableEq

inductive Step where
  | emit (e : Ev)
  | poll
deriving DecidableEq

/-- Interpret a step list under a cancellation schedule: emits append their
event, a poll that observes the flag terminates the run on the spot
(`if self.cancelled: return`). -/
def exec : List Step → (Nat → Bool) → Nat → List Ev
  | [], _, _ => []
  | Step.emit e :: rest, cs, k => e :: exec rest cs k
  | Step.poll :: rest, cs, k => if cs k then [] else exec rest cs (k + 1)

/-- Did some executed poll observe the cancellation flag? -/
def observed : List Step → (Nat → Bool) → Nat → Bool
  | [], _, _ => false
  | Step.emit _ :: rest, cs, k => observed rest cs k
  | Step.poll :: rest, cs, k => cs k || observed rest cs (k + 1)

/-- The request's bounding box `(xmin, ymin, xmax, ymax)`. -/
structure Bbox where
  xmin : ℚ
  ymin : ℚ
  xmax : ℚ
  ymax : ℚ

/-- The constructor arguments of `BathymetryDownloader.__init__` that the
event-level behaviour of `run` depends on (lines 23-43). -/
structure Config where
  base_url : String
  bbox : Bbox
  output_path : String
  output_crs : String
  pixel_size : Option ℚ
  max_size : Nat
  use_tile_download : Bool
  bbox_in_4326 : Bool
  pixel_size_degrees : Option ℚ
  tid_url : Option String
  download_mode : String
  output_requests : Option (List (String × String))

/-- Python `int((a - b) / p)` on exact rationals: truncation toward zero of
`(a - b) / p`, computed on raw numerators and denominators — for rationals,
`a - b = (a.num·b.den − b.num·a.den) / (a.den·b.den)`, and dividing by
`pnum / pden` and truncating toward zero is `Int.tdiv` of the cross
products. -/
def pyTruncDiv (a b : ℚ) (pnum : Int) (pden : Nat) : Int :=
  Int.tdiv ((a.num * (b.den : Int) - b.num * (a.den : Int)) * (pden : Int))
    ((a.den : Int) * (b.den : Int) * pnum)

/-- Python truthiness of the optional float fields (`None`, `0` and `0.0`
are falsy); a rational is zero iff its numerator is. -/
def pyTruthy : Option ℚ → Bool
  | none => false
  | some p => p.num != 0

/-- `width` as computed by `run` lines 65-74. -/
def widthOf (c : Config) : Int :=
  if c.bbox_in_4326 && c.pixel_size_degrees.isSome then
    pyTruncDiv c.bbox.xmax c.bbox.xmin (c.pixel_size_degrees.getD 1).num
      (c.pixel_size_degrees.getD 1).den
  else if pyTruthy c.pixel_size then
    pyTruncDiv c.bbox.xmax c.bbox.xmin (c.pixel_size.getD 1).num
      (c.pixel_size.getD 1).den
  else
    pyTruncDiv c.bbox.xmax c.bbox.xmin 4 1

/-- `height` as computed by `run` lines 65-74 (the degree branch divides by
`abs(pixel_size_degrees)`; the absolute value of a rational takes the
absolute value of its numerator). -/
def heightOf (c : Config) : Int :=
  if c.bbox_in_4326 && c.pixel_size_degrees.isSome then
    pyTruncDiv c.bbox.ymax c.bbox.ymin
      ((c.pixel_size_degrees.getD 1).num.natAbs : Int)
      (c.pixel_size_degrees.getD 1).den
  else if pyTruthy c.pixel_size then
    pyTruncDiv c.bbox.ymax c.bbox.ymin (c.pixel_size.getD 1).num
      (c.pixel_size.getD 1).den
  else
    pyTruncDiv c.bbox.ymax c.bbox.ymin 4 1

/-- `{self.pixel_size if self.pixel_size else 4}` in the size-limit message
(line 85). -/
def pixelSizeStr (c : Config) : String :=
  if pyTruthy c.pixel_size then toString (c.pixel_size.getD 1) else "4"

/-- The `SizeLimitExceeded` message of lines 79-86. -/
def sizeLimitMsg (w h : Int) (m : Nat) (ps : String) : String :=
  "Selected area exceeds maximum download size (" ++ toString m ++ " x " ++
    toString m ++ " pixels).\nRequested size: " ++ toString w ++ " x " ++
    toString h ++ " pixels.\n\nPlease either:\n1. Enable Tile Download option, or" ++
    "\n2. Select a smaller area, or\n3. Increase the cell size (currently " ++ ps ++ "m)"

/-- Status text of lines 451-456, from the init-derived preserve flags (the
lazy in-run flag update does not add or remove events, it can only change
this status wording, which no claim depends on). -/
def creatingStatus (c : Config) : String :=
  if (initPreserveFlags c.base_url).1 then "Creating GeoTIFF (signed 8-bit integer)..."
  else if (initPreserveFlags c.base_url).2 then "Creating GeoTIFF (signed 16-bit integer)..."
  else "Creating GeoTIFF..."

/-- Status text of lines 468-473. -/
def savedStatus (c : Config) : String :=
  if (initPreserveFlags c.base_url).1 then
    "GeoTIFF (signed 8-bit) saved to: " ++ c.output_path
  else if (initPreserveFlags c.base_url).2 then
    "GeoTIFF (signed 16-bit) saved to: " ++ c.output_path
  else "GeoTIFF saved to: " ++ c.output_path

/-- Steps of `_fetch_tid_grid` (lines 733-792): one request when the grid
fits in a single tile, otherwise a tile loop polling `self.cancelled` before
each tile request (line 767). -/
def tidFetchSteps (tid_url : String) (w h : Nat) : List Step :=
  if w ≤ tile_max_size ∧ h ≤ tile_max_size then
    [Step.emit (Ev.request tid_url "tiff")]
  else
    (List.range (tilesY tile_max_size h)).flatMap fun _ =>
      (List.range (tilesX tile_max_size w)).flatMap fun _ =>
        [Step.poll, Step.emit (Ev.request tid_url "tiff")]

/-- Events of the reprojection decision (lines 332-372 for the multi-output
path, 405-443 for the single-output path): only the 3857→4326 branch emits a
status; no polls, requests or writes occur. -/
def reprojectSteps (c : Config) : List Step :=
  if c.bbox_in_4326 && (c.output_crs == "EPSG:4326") then []
  else if c.output_crs == "EPSG:3857" then []
  else if c.output_crs == "EPSG:4326" then
    [Step.emit (Ev.status "Reprojecting to WGS84...")]
  else []

/-- Steps of the single (non-tiled) fetch, lines 101-137, up to the
successful decode. -/
def singleFetchSteps (url : String) (w h : Nat) : List Step :=
  [Step.emit (Ev.status ("Requesting data: " ++ toString w ++ "x" ++ toString h ++
      " pixels...")),
    Step.emit (Ev.progress 10),
    Step.poll,
    Step.emit (Ev.progress 30),
    Step.emit (Ev.status "Downloading data..."),
    Step.poll,
    Step.emit (Ev.request url "tiff")]

/-- Steps of `_download_tiled` (lines 535-731) with every tile decoding
successfully: the announcement, then per tile (row-major, `tile_y` outer) a
poll, the progress `10 + int(80 * tile_num / total_tiles)`, a status and the
tile request, then the closing progress 90. -/
def tiledFetchSteps (url : String) (w h : Nat) : List Step :=
  let tx := tilesX tile_max_size w
  let ty := tilesY tile_max_size h
  let total := tx * ty
  [Step.emit (Ev.status ("Downloading " ++ toString total ++ " tiles (" ++
      toString tx ++ "x" ++ toString ty ++ ")...")),
    Step.emit (Ev.progress 10)] ++
  ((List.range ty).flatMap fun tyi =>
    (List.range tx).flatMap fun txi =>
      [Step.poll,
        Step.emit (Ev.progress (10 + 80 * (tyi * tx + txi + 1) / total)),
        Step.emit (Ev.status ("Downloading tile " ++ toString (tyi * tx + txi + 1) ++
            "/" ++ toString total ++ "...")),
        Step.emit (Ev.request url "tiff")]) ++
  [Step.emit (Ev.progress 90), Step.emit (Ev.status "Reassembling tiles...")]

/-- Steps of the multi-output branch (lines 305-386): optional TID fetch
(with a poll before it, line 309), reprojection, progress 70, then per
requested output a poll (line 378), a status and the file write, then
progress 100, the final status and the completion signal. -/
def multiOutputSteps (c : Config) (reqs : List (String × String)) (w h : Nat) :
    List Step :=
  (if reqs.any (fun r => maskModes.contains r.1) && c.tid_url.isSome then
    [Step.poll, Step.emit (Ev.status "Downloading TID grid for masking...")] ++
      tidFetchSteps (c.tid_url.getD "") w h
  else []) ++
  reprojectSteps c ++
  [Step.emit (Ev.progress 70)] ++
  (reqs.flatMap fun r =>
    [Step.poll, Step.emit (Ev.status ("Writing " ++ r.1 ++ "...")),
      Step.emit (Ev.write r.2)]) ++
  [Step.emit (Ev.progress 100),
    Step.emit (Ev.status ("Saved " ++ toString reqs.length ++ " file(s).")),
    Step.emit (Ev.finished (String.intercalate "\n" (reqs.map Prod.snd)))]

/-- Steps of the single-output tail of `run` (lines 387-474): optional TID
fetch for the masking modes (poll at line 389), reprojection, progress 70,
the creating status, the poll of line 458, the file write, progress 100, the
saved status and the completion signal. -/
def singleOutputSteps (c : Config) (w h : Nat) : List Step :=
  (if (c.download_mode == "bathymetry_only" || c.download_mode == "land_only") &&
      c.tid_url.isSome then
    [Step.poll, Step.emit (Ev.status "Downloading TID grid for masking...")] ++
      tidFetchSteps (c.tid_url.getD "") w h
  else []) ++
  reprojectSteps c ++
  [Step.emit (Ev.progress 70),
    Step.emit (Ev.status (creatingStatus c)),
    Step.poll,
    Step.emit (Ev.write c.output_path),
    Step.emit (Ev.progress 100),
    Step.emit (Ev.status (savedStatus c)),
    Step.emit (Ev.finished c.output_path)]

/-- The full step list of one `run` invocation (lines 59-479), in program
order: the pre-flight size check (lines 76-88), the tiling decision
(line 91), the fetch, the shared `progress(50)`/"Processing data..." poll
point (lines 288-292), and the output tail. -/
def runSteps (c : Config) : List Step :=
  if c.use_tile_download = false ∧
      ((c.max_size : Int) < widthOf c ∨ (c.max_size : Int) < heightOf c) then
    [Step.emit (Ev.error (sizeLimitMsg (widthOf c) (heightOf c) c.max_size (pixelSizeStr c)))]
  else
    (if c.use_tile_download &&
        (decide (tile_max_size < (widthOf c).toNat) ||
          decide (tile_max_size < (heightOf c).toNat)) then
      tiledFetchSteps c.base_url (widthOf c).toNat (heightOf c).toNat
    else
      singleFetchSteps c.base_url (widthOf c).toNat (heightOf c).toNat) ++
    [Step.emit (Ev.progress 50), Step.emit (Ev.status "Processing data..."), Step.poll] ++
    (match c.output_requests with
      | some reqs => multiOutputSteps c reqs (widthOf c).toNat (heightOf c).toNat
      | none => singleOutputSteps c (widthOf c).toNat (heightOf c).toNat)

/-- The event stream of one `run` under a cancellation schedule. -/
def runEvents (c : Config) (cs : Nat → Bool) : List Ev :=
  exec (runSteps c) cs 0

/-- The subsequence of emitted progress percentages. -/
def progressList (evs : List Ev) : List Nat :=
  evs.filterMap fun e =>
    match e with
    | Ev.progress n => some n
    | _ => none

/-! #### Generic facts about `exec` and `observed` -/

def isFinishedEmit : Step → Bool
  | Step.emit (Ev.finished _) => true
  | Step.emit (Ev.progress _) => false
  | Step.emit (Ev.status _) => false
  | Step.emit (Ev.error _) => false
  | Step.emit (Ev.request _ _) => false
  | Step.emit (Ev.write _) => false
  | Step.poll => false

def isErrorEmit : Step → Bool
  | Step.emit (Ev.error _) => true
  | Step.emit (Ev.progress _) => false
  | Step.emit (Ev.status _) => false
  | Step.emit (Ev.finished _) => false
  | Step.emit (Ev.request _ _) => false
  | Step.emit (Ev.write _) => false
  | Step.poll => false

def isPollStep : Step → Bool
  | Step.poll => true
  | Step.emit _ => false

def noFinishedEmit (L : List Step) : Bool := L.all fun st => !isFinishedEmit st

def noErrorEmit (L : List Step) : Bool := L.all fun st => !isErrorEmit st

def hasPoll (L : List Step) : Bool := L.any isPollStep

/-- After a completion emit no poll may follow; this holds of every path of
`run`, which emits `finished` only as its very last action. -/
def finishedThenNoPoll : List Step → Bool
  | [] => true
  | st :: rest => (!isFinishedEmit st || !hasPoll rest) && finishedThenNoPoll rest

theorem observed_hasPoll {L : List Step} {cs : Nat → Bool} {k : Nat}
    (h : observed L cs k = true) : hasPoll L = true := by
  induction L generalizing k with
  | nil => simp [observed] at h
  | cons st rest ih =>
    cases st with
    | emit e =>
      rw [observed] at h
      simpa [hasPoll, List.any_cons, isPollStep] using ih h
    | poll => simp [hasPoll, List.any_cons, isPollStep]

theorem exec_mem_emit {L : List Step} {cs : Nat → Bool} {k : Nat} {ev : Ev}
    (h : ev ∈ exec L cs k) : Step.emit ev ∈ L := by
  induction L generalizing k with
  | nil => simp [exec] at h
  | cons st rest ih =>
    cases st with
    | emit e =>
      rw [exec] at h
      rcases List.mem_cons.1 h with h | h
      · subst h; exact List.mem_cons_self _ _
      · exact List.mem_cons_of_mem _ (ih h)
    | poll =>
      rw [exec] at h
      by_cases hcs : cs k
      · simp [hcs] at h
      · rw [if_neg hcs] at h
        exact List.mem_cons_of_mem _ (ih h)

theorem finishedThenNoPoll_append {A B : List Step}
    (h : noFinishedEmit A = true) :
    finishedThenNoPoll (A ++ B) = finishedThenNoPoll B := by
  induction A with
  | nil => rfl
  | cons a A ih =>
    rw [noFinishedEmit, List.all_cons, Bool.and_eq_true] at h
    have ha : isFinishedEmit a = false := by simpa using h.1
    have hA : noFinishedEmit A = true := h.2
    rw [List.cons_append, finishedThenNoPoll, ha, ih hA]
    simp

theorem no_finished_of_observed {L : List Step} {cs : Nat → Bool} {k : Nat}
    (hftnp : finishedThenNoPoll L = true) (hobs : observed L cs k = true)
    (s : String) : Ev.finished s ∉ exec L cs k := by
  induction L generalizing k with
  | nil => simp [observed] at hobs
  | cons st rest ih =>
    rw [finishedThenNoPoll, Bool.and_eq_true] at hftnp
    cases st with
    | emit e =>
      rw [observed] at hobs
      rw [exec]
      intro hmem
      rcases List.mem_cons.1 hmem with h | h
      · have he : isFinishedEmit (Step.emit e) = true := by
          rw [← h]; rfl
        have hnp : hasPoll rest = true := observed_hasPoll hobs
        rw [he, hnp] at hftnp
        simp at hftnp
      · exact ih hftnp.2 hobs h
    | poll =>
      rw [observed] at hobs
      rw [exec]
      by_cases hcs : cs k
      · simp [hcs]
      · rw [if_neg hcs]
        rw [Bool.or_eq_true] at hobs
        rcases hobs with hobs | hobs
        · exact absurd hobs hcs
        · exact ih hftnp.2 hobs

theorem exec_false_eq (L : List Step) (j k : Nat) :
    exec L (fun _ => false) j = exec L (fun _ => false) k := by
  induction L generalizing j k with
  | nil => rfl
  | cons st rest ih =>
    cases st with
    | emit e => rw [exec, exec, ih j k]
    | poll =>
      rw [exec, exec, if_neg (by simp), if_neg (by simp)]
      exact ih (j + 1) (k + 1)

theorem exec_false_append (A B : List Step) :
    exec (A ++ B) (fun _ => false) 0 =
      exec A (fun _ => false) 0 ++ exec B (fun _ => false) 0 := by
  induction A with
  | nil => rfl
  | cons st A ih =>
    cases st with
    | emit e => rw [List.cons_append, exec, exec, ih, List.cons_append]
    | poll =>
      rw [List.cons_append, exec, exec, if_neg (by simp), if_neg (by simp),
        exec_false_eq (A ++ B) 1 0, exec_false_eq A 1 0, ih]

theorem exec_false_cons_poll (rest : List Step) :
    exec (Step.poll :: rest) (fun _ => false) 0 = exec rest (fun _ => false) 0 := by
  rw [exec, if_neg (by simp), exec_false_eq rest (0 + 1) 0]

theorem progressList_prefix_of_schedule (L : List Step) (cs : Nat → Bool) (k : Nat) :
    ∃ t, progressList (exec L cs k) ++ t = progressList (exec L (fun _ => false) 0) := by
  induction L generalizing k with
  | nil => exact ⟨[], rfl⟩
  | cons st rest ih =>
    cases st with
    | emit e =>
      obtain ⟨t, ht⟩ := ih k
      refine ⟨t, ?_⟩
      rw [exec, exec]
      cases e <;>
        simp only [progressList, List.filterMap_cons] <;>
        simp only [progressList] at ht <;>
        simp [ht]
    | poll =>
      rw [exec_false_cons_poll]
      by_cases hcs : cs k
      · rw [exec, if_pos hcs]
        exact ⟨progressList (exec rest (fun _ => false) 0), rfl⟩
      · rw [exec, if_neg hcs]
        exact ih (k + 1)

theorem mem_ite_cases {α : Type} {a : α} {P : Prop} [Decidable P] {X Y : List α}
    (h : a ∈ if P then X else Y) : a ∈ X ∨ a ∈ Y := by
  split at h
  · exact Or.inl h
  · exact Or.inr h

theorem all_flatMap_of {α β : Type} (p : β → Bool) (l : List α) (f : α → List β)
    (h : ∀ a, (f a).all p = true) : (l.flatMap f).all p = true := by
  rw [List.all_eq_true]
  intro b hb
  rw [List.mem_flatMap] at hb
  obtain ⟨a, -, hb⟩ := hb
  exact List.all_eq_true.1 (h a) b hb

theorem progressList_append (a b : List Ev) :
    progressList (a ++ b) = progressList a ++ progressList b := by
  simp [progressList]

theorem plF_append (A B : List Step) :
    progressList (exec (A ++ B) (fun _ => false) 0) =
      progressList (exec A (fun _ => false) 0) ++
        progressList (exec B (fun _ => false) 0) := by
  rw [exec_false_append, progressList_append]

theorem plF_flatMap_nil {α : Type} (l : List α) (f : α → List Step)
    (h : ∀ a, progressList (exec (f a) (fun _ => false) 0) = []) :
    progressList (exec (l.flatMap f) (fun _ => false) 0) = [] := by
  induction l with
  | nil => rfl
  | cons a l ih =>
    rw [List.flatMap_cons, plF_append, h a, ih]
    rfl

/-! #### Step classification of each segment of `run` -/

theorem nfe_singleFetch (u : String) (w h : Nat) :
    noFinishedEmit (singleFetchSteps u w h) = true := by
  simp [singleFetchSteps, noFinishedEmit, isFinishedEmit]

theorem nee_singleFetch (u : String) (w h : Nat) :
    noErrorEmit (singleFetchSteps u w h) = true := by
  simp [singleFetchSteps, noErrorEmit, isErrorEmit]

theorem nfe_tiledFetch (u : String) (w h : Nat) :
    noFinishedEmit (tiledFetchSteps u w h) = true := by
  unfold tiledFetchSteps noFinishedEmit
  simp only [List.all_append, Bool.and_eq_true]
  refine ⟨⟨?_, ?_⟩, ?_⟩
  · simp [isFinishedEmit]
  · exact all_flatMap_of _ _ _ fun tyi =>
      all_flatMap_of _ _ _ fun txi => by simp [isFinishedEmit]
  · simp [isFinishedEmit]

theorem nee_tiledFetch (u : String) (w h : Nat) :
    noErrorEmit (tiledFetchSteps u w h) = true := by
  unfold tiledFetchSteps noErrorEmit
  simp only [List.all_append, Bool.and_eq_true]
  refine ⟨⟨?_, ?_⟩, ?_⟩
  · simp [isErrorEmit]
  · exact all_flatMap_of _ _ _ fun tyi =>
      all_flatMap_of _ _ _ fun txi => by simp [isErrorEmit]
  · simp [isErrorEmit]

theorem nfe_tidFetch (u : String) (w h : Nat) :
    noFinishedEmit (tidFetchSteps u w h) = true := by
  unfold tidFetchSteps
  split_ifs
  · simp [noFinishedEmit, isFinishedEmit]
  · exact all_flatMap_of _ _ _ fun tyi =>
      all_flatMap_of _ _ _ fun txi => by simp [isFinishedEmit]

theorem nee_tidFetch (u : String) (w h : Nat) :
    noErrorEmit (tidFetchSteps u w h) = true := by
  unfold tidFetchSteps
  split_ifs
  · simp [noErrorEmit, isErrorEmit]
  · exact all_flatMap_of _ _ _ fun tyi =>
      all_flatMap_of _ _ _ fun txi => by simp [isErrorEmit]

theorem nfe_reproj (c : Config) : noFinishedEmit (reprojectSteps c) = true := by
  unfold reprojectSteps
  split_ifs <;> simp [noFinishedEmit, isFinishedEmit]

theorem nee_reproj (c : Config) : noErrorEmit (reprojectSteps c) = true := by
  unfold reprojectSteps
  split_ifs <;> simp [noErrorEmit, isErrorEmit]

theorem nfe_tidCond (P : Prop) [Decidable P] (u : String) (w h : Nat) :
    noFinishedEmit
      (if P then
        [Step.poll, Step.emit (Ev.status "Downloading TID grid for masking...")] ++
          tidFetchSteps u w h
      else []) = true := by
  split_ifs
  · rw [noFinishedEmit]
    simp only [List.all_append, Bool.and_eq_true]
    exact ⟨by simp [isFinishedEmit], nfe_tidFetch u w h⟩
  · simp [noFinishedEmit]

theorem nee_tidCond (P : Prop) [Decidable P] (u : String) (w h : Nat) :
    noErrorEmit
      (if P then
        [Step.poll, Step.emit (Ev.status "Downloading TID grid for masking...")] ++
          tidFetchSteps u w h
      else []) = true := by
  split_ifs
  · rw [noErrorEmit]
    simp only [List.all_append, Bool.and_eq_true]
    exact ⟨by simp [isErrorEmit], nee_tidFetch u w h⟩
  · simp [noErrorEmit]

theorem ftnp_multi (c : Config) (reqs : List (String × String)) (w h : Nat) :
    finishedThenNoPoll (multiOutputSteps c reqs w h) = true := by
  unfold multiOutputSteps
  rw [finishedThenNoPoll_append]
  · simp [finishedThenNoPoll, isFinishedEmit, hasPoll, isPollStep]
  · simp only [noFinishedEmit, List.all_append, Bool.and_eq_true]
    refine ⟨⟨⟨?_, ?_⟩, ?_⟩, ?_⟩
    · exact nfe_tidCond _ _ _ _
    · exact nfe_reproj c
    · simp [isFinishedEmit]
    · exact all_flatMap_of _ _ _ fun r => by simp [isFinishedEmit]

theorem ftnp_singleOut (c : Config) (w h : Nat) :
    finishedThenNoPoll (singleOutputSteps c w h) = true := by
  unfold singleOutputSteps
  rw [finishedThenNoPoll_append]
  · simp [finishedThenNoPoll, isFinishedEmit, hasPoll, isPollStep]
  · simp only [noFinishedEmit, List.all_append, Bool.and_eq_true]
    exact ⟨nfe_tidCond _ _ _ _, nfe_reproj c⟩

theorem nee_writeLoop (reqs : List (String × String)) :
    noErrorEmit
      (reqs.flatMap fun r =>
        [Step.poll, Step.emit (Ev.status ("Writing " ++ r.1 ++ "...")),
          Step.emit (Ev.write r.2)]) = true :=
  all_flatMap_of _ _ _ fun r => by simp [isErrorEmit]

theorem nee_multi (c : Config) (reqs : List (String × String)) (w h : Nat) :
    noErrorEmit (multiOutputSteps c reqs w h) = true := by
  unfold multiOutputSteps noErrorEmit
  simp only [List.all_append, Bool.and_eq_true]
  refine ⟨⟨⟨⟨?_, ?_⟩, ?_⟩, ?_⟩, ?_⟩
  · exact nee_tidCond _ _ _ _
  · exact nee_reproj c
  · simp [isErrorEmit]
  · exact nee_writeLoop reqs
  · simp [isErrorEmit]

theorem nee_singleOut (c : Config) (w h : Nat) :
    noErrorEmit (singleOutputSteps c w h) = true := by
  unfold singleOutputSteps noErrorEmit
  simp only [List.all_append, Bool.and_eq_true]
  refine ⟨⟨?_, ?_⟩, ?_⟩
  · exact nee_tidCond _ _ _ _
  · exact nee_reproj c
  · simp [isErrorEmit]

/-! #### Whole-run facts -/

theorem runSteps_ftnp (c : Config) : finishedThenNoPoll (runSteps c) = true := by
  unfold runSteps
  split_ifs with hpre htile
  · simp [finishedThenNoPoll, isFinishedEmit, hasPoll]
  · rw [finishedThenNoPoll_append]
    · cases hreq : c.output_requests with
      | some reqs => exact ftnp_multi _ _ _ _
      | none => exact ftnp_singleOut _ _ _
    · simp only [noFinishedEmit, List.all_append, Bool.and_eq_true]
      exact ⟨nfe_tiledFetch _ _ _, by simp [isFinishedEmit]⟩
  · rw [finishedThenNoPoll_append]
    · cases hreq : c.output_requests with
      | some reqs => exact ftnp_multi _ _ _ _
      | none => exact ftnp_singleOut _ _ _
    · simp only [noFinishedEmit, List.all_append, Bool.and_eq_true]
      exact ⟨nfe_singleFetch _ _ _, by simp [isFinishedEmit]⟩

theorem runSteps_else_noError (c : Config)
    (hpre : ¬(c.use_tile_download = false ∧
      ((c.max_size : Int) < widthOf c ∨ (c.max_size : Int) < heightOf c))) :
    noErrorEmit (runSteps c) = true := by
  unfold runSteps
  rw [if_neg hpre, noErrorEmit]
  simp only [List.all_append, Bool.and_eq_true]
  refine ⟨⟨?_, ?_⟩, ?_⟩
  · split_ifs
    · exact nee_tiledFetch _ _ _
    · exact nee_singleFetch _ _ _
  · simp [isErrorEmit]
  · cases hreq : c.output_requests with
    | some reqs => exact nee_multi _ _ _ _
    | none => exact nee_singleOut _ _ _

/-! #### Bounds on emitted progress values -/

theorem tile_progress_le (tx ty tyi txi : Nat) (h1 : tyi < ty) (h2 : txi < tx) :
    10 + 80 * (tyi * tx + txi + 1) / (tx * ty) ≤ 100 := by
  have hle : tyi * tx + txi + 1 ≤ tx * ty := by
    have h3 : (tyi + 1) * tx ≤ ty * tx := Nat.mul_le_mul_right _ (by omega)
    have h4 : (tyi + 1) * tx = tyi * tx + tx := by ring
    have h5 : ty * tx = tx * ty := Nat.mul_comm _ _
    omega
  have hpos : 0 < tx * ty := Nat.mul_pos (by omega) (by omega)
  have hdiv : 80 * (tyi * tx + txi + 1) / (tx * ty) < 81 := by
    rw [Nat.div_lt_iff_lt_mul hpos]
    have h6 : 80 * (tyi * tx + txi + 1) ≤ 80 * (tx * ty) :=
      Nat.mul_le_mul_left _ hle
    omega
  omega

theorem progress_le_tiled (u : String) (w h n : Nat)
    (hm : Step.emit (Ev.progress n) ∈ tiledFetchSteps u w h) : n ≤ 100 := by
  unfold tiledFetchSteps at hm
  rcases List.mem_append.1 hm with hm | hm
  · rcases List.mem_append.1 hm with hm | hm
    · simp at hm
      omega
    · simp only [List.mem_flatMap, List.mem_range] at hm
      obtain ⟨tyi, hty, txi, htx, hm⟩ := hm
      simp at hm
      have := tile_progress_le (tilesX tile_max_size w) (tilesY tile_max_size h) tyi txi hty htx
      omega
  · simp at hm
    omega

theorem progress_not_mem_tid (u : String) (w h n : Nat) :
    Step.emit (Ev.progress n) ∉ tidFetchSteps u w h := by
  unfold tidFetchSteps
  split_ifs
  · simp
  · intro hm
    simp only [List.mem_flatMap, List.mem_range] at hm
    obtain ⟨tyi, -, txi, -, hm⟩ := hm
    simp at hm

theorem progress_not_mem_reproj (c : Config) (n : Nat) :
    Step.emit (Ev.progress n) ∉ reprojectSteps c := by
  unfold reprojectSteps
  split_ifs <;> simp

theorem progress_not_mem_tidCond {P : Prop} [Decidable P] (u : String) (w h n : Nat) :
    Step.emit (Ev.progress n) ∉
      (if P then
        [Step.poll, Step.emit (Ev.status "Downloading TID grid for masking...")] ++
          tidFetchSteps u w h
      else []) := by
  intro hm
  rcases mem_ite_cases hm with hm | hm
  · rcases List.mem_append.1 hm with hm | hm
    · simp at hm
    · exact progress_not_mem_tid u w h n hm
  · simp at hm

theorem progress_le_multi (c : Config) (reqs : List (String × String)) (w h n : Nat)
    (hm : Step.emit (Ev.progress n) ∈ multiOutputSteps c reqs w h) : n ≤ 100 := by
  unfold multiOutputSteps at hm
  rcases List.mem_append.1 hm with hm | hm
  · rcases List.mem_append.1 hm with hm | hm
    · rcases List.mem_append.1 hm with hm | hm
      · rcases List.mem_append.1 hm with hm | hm
        · exact absurd hm (progress_not_mem_tidCond _ _ _ _)
        · exact absurd hm (progress_not_mem_reproj c n)
      · simp at hm
        omega
    · simp only [List.mem_flatMap] at hm
      obtain ⟨r, -, hm⟩ := hm
      simp at hm
  · simp at hm
    omega

theorem progress_le_singleOut (c : Config) (w h n : Nat)
    (hm : Step.emit (Ev.progress n) ∈ singleOutputSteps c w h) : n ≤ 100 := by
  unfold singleOutputSteps at hm
  rcases List.mem_append.1 hm with hm | hm
  · rcases List.mem_append.1 hm with hm | hm
    · exact absurd hm (progress_not_mem_tidCond _ _ _ _)
    · exact absurd hm (progress_not_mem_reproj c n)
  · simp at hm
    omega

theorem progress_emit_le (c : Config) (n : Nat)
    (h : Step.emit (Ev.progress n) ∈ runSteps c) : n ≤ 100 := by
  unfold runSteps at h
  split_ifs at h with hpre htile
  · simp at h
  · rcases List.mem_append.1 h with h | h
    · rcases List.mem_append.1 h with h | h
      · exact progress_le_tiled _ _ _ _ h
      · simp at h
        omega
    · cases hreq : c.output_requests with
      | some reqs => rw [hreq] at h; exact progress_le_multi _ _ _ _ _ h
      | none => rw [hreq] at h; exact progress_le_singleOut _ _ _ _ h
  · rcases List.mem_append.1 h with h | h
    · rcases List.mem_append.1 h with h | h
      · simp [singleFetchSteps] at h
        omega
      · simp at h
        omega
    · cases hreq : c.output_requests with
      | some reqs => rw [hreq] at h; exact progress_le_multi _ _ _ _ _ h
      | none => rw [hreq] at h; exact progress_le_singleOut _ _ _ _ h

/-! #### The progress sequence of an un-tiled run -/

theorem plF_tidFetch (u : String) (w h : Nat) :
    progressList (exec (tidFetchSteps u w h) (fun _ => false) 0) = [] := by
  unfold tidFetchSteps
  split_ifs
  · rfl
  · exact plF_flatMap_nil _ _ fun tyi => plF_flatMap_nil _ _ fun txi => rfl

theorem plF_tidCond (P : Prop) [Decidable P] (u : String) (w h : Nat) :
    progressList
      (exec
        (if P then
          [Step.poll, Step.emit (Ev.status "Downloading TID grid for masking...")] ++
            tidFetchSteps u w h
        else []) (fun _ => false) 0) = [] := by
  split_ifs
  · rw [plF_append, plF_tidFetch]
    rfl
  · rfl

theorem plF_reproj (c : Config) :
    progressList (exec (reprojectSteps c) (fun _ => false) 0) = [] := by
  unfold reprojectSteps
  split_ifs <;> rfl

theorem plF_multi (c : Config) (reqs : List (String × String)) (w h : Nat) :
    progressList (exec (multiOutputSteps c reqs w h) (fun _ => false) 0) =
      [70, 100] := by
  unfold multiOutputSteps
  rw [plF_append, plF_append, plF_append, plF_append, plF_tidCond, plF_reproj,
    plF_flatMap_nil reqs
      (fun r =>
        [Step.poll, Step.emit (Ev.status ("Writing " ++ r.1 ++ "...")),
          Step.emit (Ev.write r.2)])
      (fun r => rfl)]
  rfl

theorem plF_singleOut (c : Config) (w h : Nat) :
    progressList (exec (singleOutputSteps c w h) (fun _ => false) 0) =
      [70, 100] := by
  unfold singleOutputSteps
  rw [plF_append, plF_append, plF_tidCond, plF_reproj]
  rfl

theorem plF_untiled_run (c : Config)
    (h1 : c.use_tile_download = false)
    (hpre : ¬(c.use_tile_download = false ∧
      ((c.max_size : Int) < widthOf c ∨ (c.max_size : Int) < heightOf c))) :
    progressList (exec (runSteps c) (fun _ => false) 0) = [10, 30, 50, 70, 100] := by
  unfold runSteps
  rw [if_neg hpre]
  have htile : (c.use_tile_download &&
      (decide (tile_max_size < (widthOf c).toNat) ||
        decide (tile_max_size < (heightOf c).toNat))) = false := by
    rw [h1, Bool.false_and]
  rw [if_neg (by rw [htile]; exact Bool.false_ne_true)]
  rw [plF_append, plF_append]
  cases hreq : c.output_requests with
  | some reqs => rw [plF_multi]; rfl
  | none => rw [plF_singleOut]; rfl

/-- Helper turning a decidable whole-trace check into the universally
quantified absence of completion events. -/
theorem no_finished_of_all {evs : List Ev}
    (h : (evs.all fun e =>
      match e with
      | Ev.finished _ => false
      | _ => true) = true) :
    ∀ s, Ev.finished s ∉ evs := by
  intro s hmem
  have := List.all_eq_true.1 h _ hmem
  simp at this

/-! ### C6: pre-flight size limit -/

/-- C6 (confirmed).  For every request with tiling disabled whose computed
output width or height exceeds the maximum un-tiled edge length, the run
emits exactly one event — the `SizeLimitExceeded` error — whose message
carries both the requested width×height and the maximum size, and no
network request is ever issued. -/
theorem c6_size_limit_before_any_request (c : Config) (cs : Nat → Bool)
    (h1 : c.use_tile_download = false)
    (h2 : (c.max_size : Int) < widthOf c ∨ (c.max_size : Int) < heightOf c) :
    runEvents c cs =
      [Ev.error (sizeLimitMsg (widthOf c) (heightOf c) c.max_size (pixelSizeStr c))] ∧
    (∀ u f, Ev.request u f ∉ runEvents c cs) ∧
    (∃ s1 s2 s3 s4,
      sizeLimitMsg (widthOf c) (heightOf c) c.max_size (pixelSizeStr c) =
        s1 ++ toString c.max_size ++ s2 ++ toString (widthOf c) ++ s3 ++
          toString (heightOf c) ++ s4) := by
  have hss : runSteps c =
      [Step.emit (Ev.error (sizeLimitMsg (widthOf c) (heightOf c) c.max_size
        (pixelSizeStr c)))] := by
    unfold runSteps
    rw [if_pos ⟨h1, h2⟩]
  refine ⟨?_, ?_, ?_⟩
  · rw [runEvents, hss]
    rfl
  · intro u f hmem
    rw [runEvents, hss] at hmem
    simp [exec] at hmem
  · refine ⟨"Selected area exceeds maximum download size (",
      " x " ++ toString c.max_size ++ " pixels).\nRequested size: ",
      " x ",
      " pixels.\n\nPlease either:\n1. Enable Tile Download option, or" ++
        "\n2. Select a smaller area, or\n3. Increase the cell size (currently " ++
        pixelSizeStr c ++ "m)", ?_⟩
    simp [sizeLimitMsg, String.append_assoc]

/-- The scenario of the specification: bbox (0,0,2000,2000), pixel size 1,
tiling disabled, maximum un-tiled edge 1999. -/
def c6Cfg : Config :=
  ⟨"http://example.com/ImageServer", ⟨0, 0, 2000, 2000⟩, "out.tif", "EPSG:3857",
    some 1, 1999, false, false, none, none, "combined", none⟩

theorem c6_witness :
    c6Cfg.use_tile_download = false ∧
    ((c6Cfg.max_size : Int) < widthOf c6Cfg ∨ (c6Cfg.max_size : Int) < heightOf c6Cfg) ∧
    (runEvents c6Cfg (fun _ => false) =
      [Ev.error (sizeLimitMsg (widthOf c6Cfg) (heightOf c6Cfg) c6Cfg.max_size
        (pixelSizeStr c6Cfg))] ∧
    (∀ u f, Ev.request u f ∉ runEvents c6Cfg (fun _ => false)) ∧
    (∃ s1 s2 s3 s4,
      sizeLimitMsg (widthOf c6Cfg) (heightOf c6Cfg) c6Cfg.max_size (pixelSizeStr c6Cfg) =
        s1 ++ toString c6Cfg.max_size ++ s2 ++ toString (widthOf c6Cfg) ++ s3 ++
          toString (heightOf c6Cfg) ++ s4)) :=
  ⟨rfl, by decide,
    c6_size_limit_before_any_request c6Cfg (fun _ => false) rfl (by decide)⟩

/-! ### C8: cooperative cancellation -/

/-- C8 (amended).  Whenever a poll of `self.cancelled` observes the flag, the
run terminates on the spot: the event stream contains no completion event
and no error event — a Cancelled outcome, not an error — and nothing (in
particular no file write) is performed after the observation.  Output files
written *before* the flag was observed are not removed, so a multi-output
run cancelled between two write stages keeps the files already written
(the original claim's "zero output files" fails there). -/
theorem c8_cancellation_silent_stop (c : Config) (cs : Nat → Bool)
    (h : observed (runSteps c) cs 0 = true) :
    (∀ s, Ev.finished s ∉ runEvents c cs) ∧
    (∀ s, Ev.error s ∉ runEvents c cs) := by
  constructor
  · exact fun s => no_finished_of_observed (runSteps_ftnp c) h s
  · intro s hmem
    by_cases hpre : c.use_tile_download = false ∧
        ((c.max_size : Int) < widthOf c ∨ (c.max_size : Int) < heightOf c)
    · rw [runEvents] at hmem
      unfold runSteps at h
      rw [if_pos hpre] at h
      simp [observed] at h
    · have hemit := exec_mem_emit hmem
      have hne := runSteps_else_noError c hpre
      have := List.all_eq_true.1 hne _ hemit
      simp [isErrorEmit] at this

/-- A multi-output request over a small area: two outputs, TID masking
needed. -/
def c8Cfg : Config :=
  ⟨"http://example.com/ImageServer", ⟨0, 0, 100, 100⟩, "out.tif", "EPSG:3857",
    some 1, 14000, false, false, none, some "http://example.com/TID/ImageServer",
    "combined", some [("combined", "out1.tif"), ("bathymetry_only", "out2.tif")]⟩

/-- Cancellation signalled while the first output file is being written: the
first four polls see the flag unset, every later poll sees it set. -/
def c8Schedule : Nat → Bool := fun k => decide (5 ≤ k)

/-- C8 (counterexample).  In the two-output run `c8Cfg`, cancellation
signalled after the first file write is observed at the poll guarding the
second write (a polling point before a post-processing stage): the run
stops with a Cancelled outcome, yet `out1.tif` has already been written —
the claimed "zero output files to disk" is false. -/
theorem c8_counterexample :
    observed (runSteps c8Cfg) c8Schedule 0 = true ∧
    Ev.write "out1.tif" ∈ runEvents c8Cfg c8Schedule ∧
    Ev.write "out2.tif" ∉ runEvents c8Cfg c8Schedule ∧
    (∀ s, Ev.finished s ∉ runEvents c8Cfg c8Schedule) := by
  refine ⟨by decide, by decide, by decide, no_finished_of_all (by decide)⟩

theorem c8_witness :
    observed (runSteps c8Cfg) c8Schedule 0 = true ∧
    ((∀ s, Ev.finished s ∉ runEvents c8Cfg c8Schedule) ∧
      (∀ s, Ev.error s ∉ runEvents c8Cfg c8Schedule)) :=
  ⟨by decide, c8_cancellation_silent_stop c8Cfg c8Schedule (by decide)⟩

/-! ### C9: progress stream -/

/-- C9 (amended).  In every run, every emitted progress value is an integer
in [0, 100]; in every run with tiling disabled, the sequence of emitted
progress values is monotonically non-decreasing.  (In tiled runs
monotonicity fails at the transition from the tiled-download stage — which
ends at 90 — back into post-processing, which restarts at 50.) -/
theorem c9_progress_bounded_untiled_monotone (c : Config) (cs : Nat → Bool) :
    (∀ n, Ev.progress n ∈ runEvents c cs → n ≤ 100) ∧
    (c.use_tile_download = false →
      List.Chain' (· ≤ ·) (progressList (runEvents c cs))) := by
  constructor
  · intro n hmem
    exact progress_emit_le c n (exec_mem_emit hmem)
  · intro h1
    by_cases hpre : c.use_tile_download = false ∧
        ((c.max_size : Int) < widthOf c ∨ (c.max_size : Int) < heightOf c)
    · rw [runEvents]
      unfold runSteps
      rw [if_pos hpre]
      simp [exec, progressList]
    · obtain ⟨t, ht⟩ := progressList_prefix_of_schedule (runSteps c) cs 0
      rw [plF_untiled_run c h1 hpre] at ht
      have hch : List.Chain' (· ≤ ·) (progressList (exec (runSteps c) cs 0) ++ t) := by
        rw [ht]
        simp [List.chain'_cons]
      rw [runEvents]
      exact List.Chain'.left_of_append hch

/-- A tiled request: 4000×2 canvas, two 2000-wide tiles. -/
def c9Cfg : Config :=
  ⟨"http://example.com/ImageServer", ⟨0, 0, 4000, 2⟩, "out.tif", "EPSG:3857",
    some 1, 14000, true, false, none, none, "combined", none⟩

/-- C9 (counterexample).  In the tiled run `c9Cfg` the emitted progress
sequence is 10, 50, 90, 90, 50, 70, 100: the tiled-download stage ends at
90 and the post-processing stage then emits 50 (line 288), so the stream is
not monotonically non-decreasing across that transition. -/
theorem c9_counterexample :
    progressList (runEvents c9Cfg (fun _ => false)) = [10, 50, 90, 90, 50, 70, 100] ∧
    ¬ List.Chain' (· ≤ ·) (progressList (runEvents c9Cfg (fun _ => false))) := by
  have h : progressList (runEvents c9Cfg (fun _ => false)) =
      [10, 50, 90, 90, 50, 70, 100] := by decide
  refine ⟨h, ?_⟩
  rw [h]
  simp [List.chain'_cons]

theorem c9_witness :
    (∀ n, Ev.progress n ∈ runEvents c6Cfg (fun _ => false) → n ≤ 100) ∧
    (c6Cfg.use_tile_download = false →
      List.Chain' (· ≤ ·) (progressList (runEvents c6Cfg (fun _ => false)))) :=
  c9_progress_bounded_untiled_monotone c6Cfg (fun _ => false)

end WorldBathy
